import Mathlib

/-!
Verification of the Indicator & Signal Engine of the Trading-Strategies
repository (MACD.py, RSI.py with the SMA-crossover class, bollinger_bands.py,
and the EMA-crossover / Fibonacci script).

Embedding conventions:
* a price series is a function `ℕ → ℚ` giving the close price at each index
  (exact rationals idealize the source's floats);
* pandas NaN sentinels are embedded as `Option ℚ` with `none` for NaN, and
  the pandas comparison semantics (every comparison involving NaN is false)
  are made explicit by the `opt` comparison helpers;
* a pandas DataFrame is embedded as a `Frame`: the close column plus a list
  of named derived columns, and the in-place column assignments of the
  source become explicit state passing `Frame → Frame`.
-/

/-- Smoothing factor used by `pandas.Series.ewm(span, adjust=False)`:
`alpha = 2 / (span + 1)`. -/
def emaAlpha (span : ℕ) : ℚ := 2 / (span + 1)

/-- `series.ewm(span=s, adjust=False).mean()` as used in
`EMACrossover.calculate_ema` and `MACDStrategy.calculate_macd`:
`y[0] = x[0]`, `y[i] = x[i] * alpha + y[i-1] * (1 - alpha)`. -/
def ema (span : ℕ) (close : ℕ → ℚ) : ℕ → ℚ
  | 0 => close 0
  | i + 1 => close (i + 1) * emaAlpha span + ema span close i * (1 - emaAlpha span)

/-- Number of in-range positions of the trailing window of width `p` ending
at index `i` (pandas `rolling(window=p)` clips the window at the start of
the series). -/
def windowLen (p i : ℕ) : ℕ := min (i + 1) p

/-- First index covered by the trailing window of width `p` ending at `i`
(truncated subtraction clips at 0). -/
def windowStart (p i : ℕ) : ℕ := i + 1 - p

/-- Sum of the values in the trailing window of width `p` ending at `i`. -/
def windowSum (p : ℕ) (f : ℕ → ℚ) (i : ℕ) : ℚ :=
  ∑ j in Finset.range (windowLen p i), f (windowStart p i + j)

/-- `series.rolling(window=p, min_periods=minp).mean()` at index `i`,
for a NaN-free input series `f`: NaN (`none`) when fewer than `minp`
values are in the window, otherwise the mean of the available values. -/
def rollingMean (p minp : ℕ) (f : ℕ → ℚ) (i : ℕ) : Option ℚ :=
  if windowLen p i < minp then none
  else some (windowSum p f i / (windowLen p i : ℚ))

/-- `series.rolling(window=p).mean()` (pandas defaults `min_periods` to the
window size), as used in `SMACrossover.calculate_sma`, `bollinger_bands`
and `FibonacciStockIndicator.generate_trading_signals`. -/
def sma (p : ℕ) (close : ℕ → ℚ) (i : ℕ) : Option ℚ :=
  rollingMean p p close i

/-- Price change `delta = self.data['Close'].diff()` of
`RSIStrategy.calculate_rsi`: NaN at index 0. -/
def deltaAt (close : ℕ → ℚ) (i : ℕ) : Option ℚ :=
  if i = 0 then none else some (close i - close (i - 1))

/-- `gain = delta.where(delta > 0, 0)`: keep positive changes, replace the
rest by 0.  At index 0 the NaN comparison `NaN > 0` is false, so the NaN is
replaced by 0 as well. -/
def gainAt (close : ℕ → ℚ) (i : ℕ) : ℚ :=
  if i = 0 then 0
  else if 0 < close i - close (i - 1) then close i - close (i - 1) else 0

/-- `loss = -delta.where(delta < 0, 0)`: keep negative changes, replace the
rest by 0, then negate.  At index 0 the NaN comparison is false, giving 0. -/
def lossAt (close : ℕ → ℚ) (i : ℕ) : ℚ :=
  if i = 0 then 0
  else if close i - close (i - 1) < 0 then -(close i - close (i - 1)) else 0

/-- `avg_gain = gain.rolling(window=period, min_periods=1).mean()` of
`RSIStrategy.calculate_rsi`. -/
def avgGain (period : ℕ) (close : ℕ → ℚ) (i : ℕ) : Option ℚ :=
  rollingMean period 1 (gainAt close) i

/-- `avg_loss = loss.rolling(window=period, min_periods=1).mean()` of
`RSIStrategy.calculate_rsi`. -/
def avgLoss (period : ℕ) (close : ℕ → ℚ) (i : ℕ) : Option ℚ :=
  rollingMean period 1 (lossAt close) i

/-- The IEEE-float evaluation of `rs = avg_gain / avg_loss` and
`RSI = 100 - 100 / (1 + rs)` in `RSIStrategy.calculate_rsi`, made explicit
over ℚ: `none` is the NaN produced by `0/0` when both averages are 0, and
when only `avg_loss` is 0 the infinite ratio yields exactly 100
(`100 - 100/inf = 100`).  The source has no explicit branch; these cases
are how its unbranched float formula behaves. -/
def rsi (period : ℕ) (close : ℕ → ℚ) (i : ℕ) : Option ℚ :=
  match avgGain period close i, avgLoss period close i with
  | some g, some l =>
      if l = 0 then (if g = 0 then none else some 100)
      else some (100 - 100 / (1 + g / l))
  | _, _ => none

/-- MACD line of `MACDStrategy.calculate_macd`:
`ewm(span=12).mean() - ewm(span=26).mean()` of the close series. -/
def macdLine (close : ℕ → ℚ) (i : ℕ) : ℚ :=
  ema 12 close i - ema 26 close i

/-- Signal line of `MACDStrategy.calculate_macd`: `ewm(span=9).mean()` of
the MACD line. -/
def macdSignalLine (close : ℕ → ℚ) (i : ℕ) : ℚ :=
  ema 9 (macdLine close) i

/-- Buy condition of `MACDStrategy.generate_signals`: the loop runs for
`i` from 1, and sets `Buy_Signal` iff `MACD[i] > MACD_SIGNAL[i]`,
`MACD[i-1] <= MACD_SIGNAL[i-1]` and `MACD[i] < 0`. -/
def macdBuySignal (close : ℕ → ℚ) (i : ℕ) : Bool :=
  decide (1 ≤ i) && decide (macdSignalLine close i < macdLine close i)
    && decide (macdLine close (i - 1) ≤ macdSignalLine close (i - 1))
    && decide (macdLine close i < 0)

/-- Sell condition of `MACDStrategy.generate_signals`: `Sell_Signal` iff
`MACD[i] < MACD_SIGNAL[i]`, `MACD[i-1] >= MACD_SIGNAL[i-1]` and
`MACD[i] > 0`, for `i` from 1. -/
def macdSellSignal (close : ℕ → ℚ) (i : ℕ) : Bool :=
  decide (1 ≤ i) && decide (macdLine close i < macdSignalLine close i)
    && decide (macdSignalLine close (i - 1) ≤ macdLine close (i - 1))
    && decide (0 < macdLine close i)

/-- Pandas strict greater-than on possibly-NaN values: any comparison
involving NaN is false. -/
def optGt : Option ℚ → Option ℚ → Bool
  | some a, some b => decide (b < a)
  | _, _ => false

/-- Pandas less-or-equal on possibly-NaN values: false when either side is
NaN. -/
def optLe : Option ℚ → Option ℚ → Bool
  | some a, some b => decide (a ≤ b)
  | _, _ => false

/-- Pandas greater-or-equal on possibly-NaN values: false when either side
is NaN. -/
def optGe : Option ℚ → Option ℚ → Bool
  | some a, some b => decide (b ≤ a)
  | _, _ => false

/-- `Signal = np.where(SMA_Short > SMA_Long, 1.0, 0.0)` of
`SMACrossover.generate_signals` (a NaN SMA makes the comparison false,
hence signal 0). -/
def smaCrossSignal (short long : ℕ) (close : ℕ → ℚ) (i : ℕ) : ℚ :=
  if optGt (sma short close i) (sma long close i) then 1 else 0

/-- `Crossover = Signal.diff()` of `SMACrossover.generate_signals`: NaN at
index 0, else the difference of consecutive signal values. -/
def smaCrossoverAt (short long : ℕ) (close : ℕ → ℚ) (i : ℕ) : Option ℚ :=
  if i = 0 then none
  else some (smaCrossSignal short long close i - smaCrossSignal short long close (i - 1))

/-- Buy marker of the SMA crossover strategy: rows with `Crossover == 1.0`. -/
def smaCrossBuy (short long : ℕ) (close : ℕ → ℚ) (i : ℕ) : Bool :=
  decide (smaCrossoverAt short long close i = some 1)

/-- Sell marker of the SMA crossover strategy: rows with `Crossover == -1.0`. -/
def smaCrossSell (short long : ℕ) (close : ℕ → ℚ) (i : ℕ) : Bool :=
  decide (smaCrossoverAt short long close i = some (-1))

/-- `Signal = np.where(EMA_Short > EMA_Long, 1.0, 0.0)` of
`EMACrossover.generate_signals` (EMAs are defined at every index). -/
def emaCrossSignal (short long : ℕ) (close : ℕ → ℚ) (i : ℕ) : ℚ :=
  if ema long close i < ema short close i then 1 else 0

/-- `Crossover = Signal.diff()` of `EMACrossover.generate_signals`. -/
def emaCrossoverAt (short long : ℕ) (close : ℕ → ℚ) (i : ℕ) : Option ℚ :=
  if i = 0 then none
  else some (emaCrossSignal short long close i - emaCrossSignal short long close (i - 1))

/-- Buy marker of the EMA crossover strategy: rows with `Crossover == 1.0`. -/
def emaCrossBuy (short long : ℕ) (close : ℕ → ℚ) (i : ℕ) : Bool :=
  decide (emaCrossoverAt short long close i = some 1)

/-- Sell marker of the EMA crossover strategy: rows with `Crossover == -1.0`. -/
def emaCrossSell (short long : ℕ) (close : ℕ → ℚ) (i : ℕ) : Bool :=
  decide (emaCrossoverAt short long close i = some (-1))

/-- `series.shift(1)` on a possibly-NaN series: NaN at index 0. -/
def shift1 (f : ℕ → Option ℚ) (i : ℕ) : Option ℚ :=
  if i = 0 then none else f (i - 1)

/-- Buy condition of `FibonacciStockIndicator.generate_trading_signals`:
`(SMA_10 > SMA_30) & (SMA_10.shift(1) <= SMA_30.shift(1))`. -/
def fibBuySignal (close : ℕ → ℚ) (i : ℕ) : Bool :=
  optGt (sma 10 close i) (sma 30 close i) &&
    optLe (shift1 (sma 10 close) i) (shift1 (sma 30 close) i)

/-- Sell condition of `FibonacciStockIndicator.generate_trading_signals`:
`(SMA_10 < SMA_30) & (SMA_10.shift(1) >= SMA_30.shift(1))`. -/
def fibSellSignal (close : ℕ → ℚ) (i : ℕ) : Bool :=
  optGt (sma 30 close i) (sma 10 close i) &&
    optGe (shift1 (sma 10 close) i) (shift1 (sma 30 close) i)

/-- The Fibonacci retracement levels dictionary built by
`FibonacciStockIndicator.calculate_fibonacci_levels`, one field per key of
the source's `levels` dict. -/
structure FibLevels where
  level0 : ℚ
  level236 : ℚ
  level382 : ℚ
  level50 : ℚ
  level618 : ℚ
  level100 : ℚ
deriving DecidableEq

/-- `FibonacciStockIndicator.calculate_fibonacci_levels`:
`high = data['High'].max()`, `low = data['Low'].min()`, then the levels
dict; `'0%'` is assigned `high` and `'100%'` is assigned `low` directly,
the intermediate ratios via `high - r * (high - low)`.  `none` models the
degenerate empty-series case where max/min do not exist. -/
def calculate_fibonacci_levels (highs lows : List ℚ) : Option FibLevels :=
  match highs.max?, lows.min? with
  | some high, some low =>
      some ⟨high, high - 0.236 * (high - low), high - 0.382 * (high - low),
        high - 0.5 * (high - low), high - 0.618 * (high - low), low⟩
  | _, _ => none

/-- A pandas DataFrame as the engine sees it: the close-price column it was
given, plus the named derived columns (`Option ℚ` entries model NaN).
In-place column assignment in the source becomes explicit state passing
`Frame → Frame`. -/
structure Frame where
  close : List ℚ
  cols : List (String × List (Option ℚ))
deriving DecidableEq

/-- Read the close column as a total function (indices past the end are
irrelevant to every statement below). -/
def closeFun (l : List ℚ) : ℕ → ℚ := fun i => l.getD i 0

/-- Materialize the first `n` values of a derived series as a column. -/
def colOf (n : ℕ) (f : ℕ → Option ℚ) : List (Option ℚ) :=
  (List.range n).map f

/-- `data[name] = col`: pandas replaces the column if the name exists and
appends it otherwise.  Column order is not observable by any claim, so the
new binding is kept at the head and stale bindings are dropped. -/
def setCol (cols : List (String × List (Option ℚ))) (name : String)
    (v : List (Option ℚ)) : List (String × List (Option ℚ)) :=
  (name, v) :: cols.filter (fun c => !(c.1 == name))

/-- Look a column up by name. -/
def lookupCol (cols : List (String × List (Option ℚ))) (name : String) :
    Option (List (Option ℚ)) :=
  cols.lookup name

/-- `MACDStrategy.calculate_macd` as a frame transformer: assigns the
`MACD` and `MACD_SIGNAL` columns on `self.data` in place and returns
nothing — the mutated frame is the whole effect. -/
def calculate_macd (df : Frame) : Frame :=
  let c := closeFun df.close
  let n := df.close.length
  { df with
    cols := setCol (setCol df.cols "MACD" (colOf n (fun i => some (macdLine c i))))
      "MACD_SIGNAL" (colOf n (fun i => some (macdSignalLine c i))) }

/-- Lift rational addition over NaN: any NaN operand gives NaN. -/
def optAdd : Option ℚ → Option ℚ → Option ℚ
  | some a, some b => some (a + b)
  | _, _ => none

/-- Lift rational subtraction over NaN: any NaN operand gives NaN. -/
def optSub : Option ℚ → Option ℚ → Option ℚ
  | some a, some b => some (a - b)
  | _, _ => none

/-- Scale a possibly-NaN value by a constant. -/
def optSMul (k : ℚ) : Option ℚ → Option ℚ
  | some a => some (k * a)
  | none => none

/-- The column assignments of `bollinger_bands` as a frame transformer:
`SMA`, `STD`, `Upper Band = SMA + k * STD`, `Lower Band = SMA - k * STD`,
all written onto the downloaded frame in place.  The rolling sample
standard deviation primitive (`data['Close'].rolling(period).std()`)
produces square roots, which leave ℚ, so it is passed in abstractly as
`std`; every statement below holds for any choice of it. -/
def bollinger_bands (std : ℕ → (ℕ → ℚ) → ℕ → Option ℚ) (period : ℕ) (k : ℚ)
    (df : Frame) : Frame :=
  let c := closeFun df.close
  let n := df.close.length
  let smaCol := colOf n (sma period c)
  let stdCol := colOf n (std period c)
  let upperCol := colOf n (fun i => optAdd (sma period c i) (optSMul k (std period c i)))
  let lowerCol := colOf n (fun i => optSub (sma period c i) (optSMul k (std period c i)))
  { df with
    cols := setCol (setCol (setCol (setCol df.cols "SMA" smaCol) "STD" stdCol)
      "Upper Band" upperCol) "Lower Band" lowerCol }

/-! ## Helper lemmas -/

theorem windowSum_eq_sum_Icc (p : ℕ) (f : ℕ → ℚ) (i : ℕ) :
    windowSum p f i = ∑ j in Finset.Icc (i + 1 - p) i, f j := by
  have hcard : i + 1 - (i + 1 - p) = windowLen p i := by
    unfold windowLen; omega
  rw [windowSum, windowStart, ← Nat.Ico_succ_right,
    Finset.sum_Ico_eq_sum_range, hcard]

theorem sma_eq_none_iff (p : ℕ) (close : ℕ → ℚ) (i : ℕ) :
    sma p close i = none ↔ i + 1 < p := by
  unfold sma rollingMean
  split
  · next h =>
    unfold windowLen at h
    constructor
    · intro _; omega
    · intro _; rfl
  · next h =>
    unfold windowLen at h
    constructor
    · intro hx; exact (Option.some_ne_none _ hx).elim
    · intro hx; exact absurd hx (by omega)

theorem rollingMean_one (p : ℕ) (f : ℕ → ℚ) (i : ℕ) (hp : 1 ≤ p) :
    rollingMean p 1 f i =
      some ((∑ j in Finset.Icc (i + 1 - p) i, f j) / (windowLen p i : ℚ)) := by
  unfold rollingMean
  rw [if_neg (by unfold windowLen; omega), windowSum_eq_sum_Icc]

theorem optGt_asymm (a b : Option ℚ) (h1 : optGt a b = true)
    (h2 : optGt b a = true) : False := by
  cases a with
  | none => simp [optGt] at h1
  | some x =>
    cases b with
    | none => simp [optGt] at h1
    | some y =>
      simp only [optGt, decide_eq_true_eq] at h1 h2
      exact absurd h1 (not_lt.mpr h2.le)

theorem optGt_none (a : Option ℚ) : optGt a none = false := by
  cases a <;> rfl

theorem smaCrossSignal_eq_zero (short long : ℕ) (close : ℕ → ℚ) (j : ℕ)
    (h : j + 1 < long) : smaCrossSignal short long close j = 0 := by
  unfold smaCrossSignal
  rw [(sma_eq_none_iff long close j).mpr h, optGt_none]
  rfl

theorem ema_const (s : ℕ) (q : ℚ) (i : ℕ) : ema s (fun _ => q) i = q := by
  induction i with
  | zero => rfl
  | succ n ih => simp only [ema, ih]; ring

theorem macdLine_const (q : ℚ) (i : ℕ) : macdLine (fun _ => q) i = 0 := by
  unfold macdLine
  rw [ema_const, ema_const]
  ring

theorem lookupCol_setCol_self (cols : List (String × List (Option ℚ)))
    (name : String) (v : List (Option ℚ)) :
    lookupCol (setCol cols name v) name = some v := by
  simp [lookupCol, setCol, List.lookup]

theorem lookup_filter_ne (cols : List (String × List (Option ℚ)))
    (name m : String) (h : m ≠ name) :
    List.lookup m (cols.filter (fun c => !(c.1 == name))) = List.lookup m cols := by
  induction cols with
  | nil => rfl
  | cons c cs ih =>
    obtain ⟨k, w⟩ := c
    by_cases hk : k = name
    · have hm : (m == k) = false := by
        simp only [beq_eq_false_iff_ne, ne_eq]
        rw [hk]; exact h
      rw [List.filter_cons_of_neg (by simp [hk])]
      simp [List.lookup, hm, ih]
    · rw [List.filter_cons_of_pos (by simp [hk])]
      by_cases hmk : m = k
      · simp [List.lookup, hmk]
      · have hm : (m == k) = false := by simpa using hmk
        simp [List.lookup, hm, ih]

theorem lookupCol_setCol_ne (cols : List (String × List (Option ℚ)))
    (name m : String) (v : List (Option ℚ)) (h : m ≠ name) :
    lookupCol (setCol cols name v) m = lookupCol cols m := by
  have hm : (m == name) = false := by simpa using h
  simp only [lookupCol, setCol, List.lookup, hm]
  exact lookup_filter_ne cols name m h

theorem colOf_length (n : ℕ) (f : ℕ → Option ℚ) : (colOf n f).length = n := by
  simp [colOf]

/-! ## Claim theorems -/

/-- C3: for every series and span s ≥ 1, the exponential moving average
satisfies EMA[0] = close[0] and EMA[i] = close[i]*α + EMA[i-1]*(1-α) with
α = 2/(s+1) for every i ≥ 1; `ema` is a total function `ℕ → ℚ`, so the
value is defined from index 0 with no warm-up gap. -/
theorem ema_recurrence (s : ℕ) (close : ℕ → ℚ) (i : ℕ) (hs : 1 ≤ s)
    (hi : 1 ≤ i) :
    ema s close 0 = close 0 ∧
    ema s close i =
      close i * (2 / ((s : ℚ) + 1)) + ema s close (i - 1) * (1 - 2 / ((s : ℚ) + 1)) := by
  refine ⟨rfl, ?_⟩
  obtain ⟨j, rfl⟩ : ∃ j, i = j + 1 := ⟨i - 1, by omega⟩
  simp [ema, emaAlpha]

/-- Witness for C3 at span 1, the constant series 2, index 1. -/
theorem ema_recurrence_witness :
    ema 1 (fun _ => (2 : ℚ)) 0 = (fun _ => (2 : ℚ)) 0 ∧
    ema 1 (fun _ => (2 : ℚ)) 1 =
      (fun _ => (2 : ℚ)) 1 * (2 / (((1 : ℕ) : ℚ) + 1)) +
        ema 1 (fun _ => (2 : ℚ)) (1 - 1) * (1 - 2 / (((1 : ℕ) : ℚ) + 1)) :=
  ema_recurrence 1 (fun _ => (2 : ℚ)) 1 (by decide) (by decide)

/-- C4: for every window p ≥ 1 the simple moving average is the explicit
undefined marker (`none`) at every index i < p−1 and exactly the
arithmetic mean of the close prices at indices i−p+1 .. i otherwise. -/
theorem sma_spec (p : ℕ) (close : ℕ → ℚ) (i : ℕ) (hp : 1 ≤ p) :
    (i < p - 1 → sma p close i = none) ∧
    (p - 1 ≤ i →
      sma p close i = some ((∑ j in Finset.Icc (i + 1 - p) i, close j) / (p : ℚ))) := by
  constructor
  · intro h
    exact (sma_eq_none_iff p close i).mpr (by omega)
  · intro h
    have hlen : windowLen p i = p := by unfold windowLen; omega
    have hneg : ¬ windowLen p i < p := by omega
    unfold sma rollingMean
    rw [if_neg hneg, windowSum_eq_sum_Icc, hlen]

/-- Witness for C4 at window 2, the constant series 3, index 1. -/
theorem sma_spec_witness :
    (1 < 2 - 1 → sma 2 (fun _ => (3 : ℚ)) 1 = none) ∧
    (2 - 1 ≤ 1 → sma 2 (fun _ => (3 : ℚ)) 1 =
      some ((∑ j in Finset.Icc (1 + 1 - 2) 1, (fun _ => (3 : ℚ)) j) / ((2 : ℕ) : ℚ))) :=
  sma_spec 2 (fun _ => (3 : ℚ)) 1 (by decide)

/-- C2: for the MACD configuration with the zero-side filter and every
i ≥ 1, a Buy is emitted at i iff macd[i] > signal[i], macd[i-1] ≤
signal[i-1] and macd[i] < 0; a Sell iff macd[i] < signal[i], macd[i-1] ≥
signal[i-1] and macd[i] > 0; and when the core crossover condition fails,
no event is emitted regardless of the zero-side predicate. -/
theorem macd_signals_iff (close : ℕ → ℚ) (i : ℕ) (hi : 1 ≤ i) :
    (macdBuySignal close i = true ↔
      macdSignalLine close i < macdLine close i ∧
        macdLine close (i - 1) ≤ macdSignalLine close (i - 1) ∧
        macdLine close i < 0) ∧
    (macdSellSignal close i = true ↔
      macdLine close i < macdSignalLine close i ∧
        macdSignalLine close (i - 1) ≤ macdLine close (i - 1) ∧
        0 < macdLine close i) ∧
    (¬(macdSignalLine close i < macdLine close i ∧
        macdLine close (i - 1) ≤ macdSignalLine close (i - 1)) →
      macdBuySignal close i = false) ∧
    (¬(macdLine close i < macdSignalLine close i ∧
        macdSignalLine close (i - 1) ≤ macdLine close (i - 1)) →
      macdSellSignal close i = false) := by
  have hb : macdBuySignal close i = true ↔
      macdSignalLine close i < macdLine close i ∧
        macdLine close (i - 1) ≤ macdSignalLine close (i - 1) ∧
        macdLine close i < 0 := by
    unfold macdBuySignal
    simp [hi, and_assoc]
  have hs2 : macdSellSignal close i = true ↔
      macdLine close i < macdSignalLine close i ∧
        macdSignalLine close (i - 1) ≤ macdLine close (i - 1) ∧
        0 < macdLine close i := by
    unfold macdSellSignal
    simp [hi, and_assoc]
  refine ⟨hb, hs2, ?_, ?_⟩
  · intro h
    rw [← Bool.not_eq_true, hb]
    tauto
  · intro h
    rw [← Bool.not_eq_true, hs2]
    tauto

/-- Witness for C2 at the constant series 1, index 1 (no crossover, hence
no event). -/
theorem macd_signals_iff_witness : macdBuySignal (fun _ => (1 : ℚ)) 1 = false :=
  (macd_signals_iff (fun _ => (1 : ℚ)) 1 (by decide)).2.2.1 (by
    have h : macdLine (fun _ => (1 : ℚ)) = fun _ => (0 : ℚ) :=
      funext fun j => macdLine_const 1 j
    simp [macdSignalLine, h, ema_const, macdLine_const])

/-- C9: with high the maximum of the High values and low the minimum of
the Low values, every Fibonacci level equals high − r*(high − low) for its
ratio r ∈ {0, 0.236, 0.382, 0.5, 0.618}, and the 100% level is assigned
the value low directly. -/
theorem fibonacci_levels_spec (highs lows : List ℚ) (high low : ℚ)
    (hh : highs.max? = some high) (hl : lows.min? = some low) :
    ∃ fl, calculate_fibonacci_levels highs lows = some fl ∧
      fl.level0 = high - 0 * (high - low) ∧
      fl.level236 = high - 0.236 * (high - low) ∧
      fl.level382 = high - 0.382 * (high - low) ∧
      fl.level50 = high - 0.5 * (high - low) ∧
      fl.level618 = high - 0.618 * (high - low) ∧
      fl.level100 = low := by
  unfold calculate_fibonacci_levels
  rw [hh, hl]
  exact ⟨_, rfl, by ring, rfl, rfl, rfl, rfl, rfl⟩

/-- Witness for C9 on the two-bar series with highs [150, 120] and lows
[110, 100]. -/
theorem fibonacci_levels_spec_witness :
    ∃ fl, calculate_fibonacci_levels [150, 120] [110, 100] = some fl ∧
      fl.level0 = 150 - 0 * (150 - 100) ∧
      fl.level236 = 150 - 0.236 * (150 - 100) ∧
      fl.level382 = 150 - 0.382 * (150 - 100) ∧
      fl.level50 = 150 - 0.5 * (150 - 100) ∧
      fl.level618 = 150 - 0.618 * (150 - 100) ∧
      fl.level100 = 100 :=
  fibonacci_levels_spec [150, 120] [110, 100] 150 100 (by decide) (by decide)

/-- C10: for every series, parameters and index, none of the four signal
generators (MACD with zero-side filter, SMA crossover, EMA crossover,
SMA_10/SMA_30 crossover) marks the same bar both Buy and Sell. -/
theorem signals_mutually_exclusive (short long : ℕ) (close : ℕ → ℚ) (i : ℕ) :
    ¬(macdBuySignal close i = true ∧ macdSellSignal close i = true) ∧
    ¬(smaCrossBuy short long close i = true ∧ smaCrossSell short long close i = true) ∧
    ¬(emaCrossBuy short long close i = true ∧ emaCrossSell short long close i = true) ∧
    ¬(fibBuySignal close i = true ∧ fibSellSignal close i = true) := by
  refine ⟨?_, ?_, ?_, ?_⟩
  · rintro ⟨hb, hs⟩
    unfold macdBuySignal at hb
    unfold macdSellSignal at hs
    simp only [Bool.and_eq_true, decide_eq_true_eq] at hb hs
    exact lt_asymm hb.1.1.2 hs.1.1.2
  · rintro ⟨hb, hs⟩
    unfold smaCrossBuy at hb
    unfold smaCrossSell at hs
    simp only [decide_eq_true_eq] at hb hs
    rw [hb] at hs
    exact absurd (Option.some.inj hs) (by norm_num)
  · rintro ⟨hb, hs⟩
    unfold emaCrossBuy at hb
    unfold emaCrossSell at hs
    simp only [decide_eq_true_eq] at hb hs
    rw [hb] at hs
    exact absurd (Option.some.inj hs) (by norm_num)
  · rintro ⟨hb, hs⟩
    unfold fibBuySignal at hb
    unfold fibSellSignal at hs
    simp only [Bool.and_eq_true] at hb hs
    exact optGt_asymm _ _ hb.1 hs.1

/-- C5: the RSI pipeline of `RSIStrategy.calculate_rsi`: delta is undefined
at 0 and close[i]−close[i-1] for i ≥ 1; gain = max(delta, 0) and
loss = max(−delta, 0); the rolling averages follow the
minimum-periods-of-1 policy — for i < period they average the i+1
available values instead of being undefined, and otherwise the trailing
period values; and RSI = 100 − 100/(1 + avgGain/avgLoss) whenever the
formula's denominator chain is nonzero. -/
theorem rsi_pipeline (period : ℕ) (close : ℕ → ℚ) (i : ℕ) (hp : 1 ≤ period)
    (hi : 1 ≤ i) :
    deltaAt close 0 = none ∧
    deltaAt close i = some (close i - close (i - 1)) ∧
    gainAt close i = max (close i - close (i - 1)) 0 ∧
    lossAt close i = max (-(close i - close (i - 1))) 0 ∧
    (i + 1 ≤ period →
      avgGain period close i =
        some ((∑ j in Finset.Icc 0 i, gainAt close j) / ((i : ℚ) + 1)) ∧
      avgLoss period close i =
        some ((∑ j in Finset.Icc 0 i, lossAt close j) / ((i : ℚ) + 1))) ∧
    (period ≤ i + 1 →
      avgGain period close i =
        some ((∑ j in Finset.Icc (i + 1 - period) i, gainAt close j) / (period : ℚ)) ∧
      avgLoss period close i =
        some ((∑ j in Finset.Icc (i + 1 - period) i, lossAt close j) / (period : ℚ))) ∧
    (∀ g l, avgGain period close i = some g → avgLoss period close i = some l →
      l ≠ 0 → rsi period close i = some (100 - 100 / (1 + g / l))) := by
  have hne : i ≠ 0 := by omega
  refine ⟨rfl, ?_, ?_, ?_, ?_, ?_, ?_⟩
  · unfold deltaAt
    rw [if_neg hne]
  · unfold gainAt
    rw [if_neg hne]
    rcases lt_or_le 0 (close i - close (i - 1)) with h | h
    · rw [if_pos h]
      exact (max_eq_left h.le).symm
    · rw [if_neg (not_lt.mpr h)]
      exact (max_eq_right h).symm
  · unfold lossAt
    rw [if_neg hne]
    rcases lt_or_le (close i - close (i - 1)) 0 with h | h
    · rw [if_pos h]
      exact (max_eq_left (by linarith)).symm
    · rw [if_neg (not_lt.mpr h)]
      exact (max_eq_right (by linarith)).symm
  · intro h
    have hl : windowLen period i = i + 1 := by unfold windowLen; omega
    have hst : i + 1 - period = 0 := by omega
    constructor
    · unfold avgGain
      rw [rollingMean_one period _ i hp, hst, hl]
      norm_cast
    · unfold avgLoss
      rw [rollingMean_one period _ i hp, hst, hl]
      norm_cast
  · intro h
    have hl : windowLen period i = period := by unfold windowLen; omega
    constructor
    · unfold avgGain
      rw [rollingMean_one period _ i hp, hl]
    · unfold avgLoss
      rw [rollingMean_one period _ i hp, hl]
  · intro g l hg hl hlne
    unfold rsi
    rw [hg, hl]
    simp [hlne]

/-- Witness for C5 at period 2, the series [3, 1, 1, ...], index 1 (average
gain 0, average loss 1). -/
theorem rsi_pipeline_witness :
    rsi 2 (fun n => if n = 0 then (3 : ℚ) else 1) 1 =
      some (100 - 100 / (1 + (0 : ℚ) / 1)) :=
  (rsi_pipeline 2 (fun n => if n = 0 then (3 : ℚ) else 1) 1 (by decide)
      (by decide)).2.2.2.2.2.2 0 1
    (by norm_num [avgGain, rollingMean, windowSum, windowLen, windowStart,
      Finset.sum_range_succ, gainAt])
    (by norm_num [avgLoss, rollingMean, windowSum, windowLen, windowStart,
      Finset.sum_range_succ, lossAt])
    (by norm_num)

/-- C6: evidence of the code's behavior at the zero-division edge cases of
`RSIStrategy.calculate_rsi`: on the constant series 5 both rolling averages
are 0 at index 1 and the RSI value is the silently propagated NaN (`none`),
not a documented policy value; on the rising series n the average loss is 0
with positive average gain at index 2 and the unbranched float formula
yields exactly 100 through the infinite ratio, not through an explicit
branch. -/
theorem rsi_zero_division_behavior :
    avgGain 14 (fun _ => (5 : ℚ)) 1 = some 0 ∧
    avgLoss 14 (fun _ => (5 : ℚ)) 1 = some 0 ∧
    rsi 14 (fun _ => (5 : ℚ)) 1 = none ∧
    avgLoss 14 (fun n => (n : ℚ)) 2 = some 0 ∧
    rsi 14 (fun n => (n : ℚ)) 2 = some 100 := by
  norm_num [rsi, avgGain, avgLoss, rollingMean, windowSum, windowLen,
    windowStart, Finset.sum_range_succ, gainAt, lossAt]

/-- C7: evidence that no parameter validation exists: the SMA crossover
constructed with short_window = 2 ≥ long_window = 1 — invalid per the spec
— is not rejected; the pipeline computes and even emits a Buy event at
index 1 of a falling series instead of failing with InvalidParameter. -/
theorem smaCross_invalid_params_run :
    smaCrossBuy 2 1 (fun n => -(n : ℚ)) 1 = true := by
  norm_num [smaCrossBuy, smaCrossoverAt, smaCrossSignal, optGt, sma,
    rollingMean, windowSum, windowLen, windowStart, Finset.sum_range_succ]

/-- C1 (counterexample): with windows 1 < 2 on the two-bar series [1, 10],
the long SMA is still undefined at index 0, yet the SMA crossover emits a
Buy at index 1 — the first index at which both operands are defined. -/
theorem smaCross_warmup_buy :
    sma 2 (fun n => if n = 0 then (1 : ℚ) else 10) 0 = none ∧
    smaCrossBuy 1 2 (fun n => if n = 0 then (1 : ℚ) else 10) 1 = true := by
  constructor
  · norm_num [sma, rollingMean, windowLen]
  · norm_num [smaCrossBuy, smaCrossoverAt, smaCrossSignal, optGt, sma,
      rollingMean, windowSum, windowLen, windowStart, Finset.sum_range_succ]

/-- C1 (amended): for the EMA crossover and the MACD-vs-signal detector
both operands are defined from index 0 and no event is emitted at index 0;
for the SMA crossover no Sell is ever emitted while the long SMA was
undefined at i−1 (i < long_window) and no Buy before both SMAs are defined
(i+1 < long_window), but at the first index at which both are defined
(i = long_window − 1 ≥ 1) a Buy is emitted iff the short SMA exceeds the
long SMA there. -/
theorem crossover_warmup_behavior (short long : ℕ) (close : ℕ → ℚ) (i : ℕ)
    (hs : 1 ≤ short) (hsl : short < long) :
    (i < long → smaCrossSell short long close i = false) ∧
    (i + 1 < long → smaCrossBuy short long close i = false) ∧
    (i = long - 1 → 1 ≤ i →
      (smaCrossBuy short long close i = true ↔
        optGt (sma short close i) (sma long close i) = true)) ∧
    emaCrossBuy short long close 0 = false ∧
    emaCrossSell short long close 0 = false ∧
    macdBuySignal close 0 = false ∧
    macdSellSignal close 0 = false := by
  refine ⟨?_, ?_, ?_, rfl, rfl, rfl, rfl⟩
  · intro h
    unfold smaCrossSell
    rcases Nat.eq_zero_or_pos i with h0 | hpos
    · subst h0; rfl
    · have h1 : smaCrossSignal short long close (i - 1) = 0 :=
        smaCrossSignal_eq_zero short long close (i - 1) (by omega)
      unfold smaCrossoverAt
      rw [if_neg (by omega), h1]
      rw [decide_eq_false_iff_not]
      intro hcontr
      have hval := Option.some.inj hcontr
      unfold smaCrossSignal at hval
      split at hval <;> norm_num at hval
  · intro h
    unfold smaCrossBuy
    rcases Nat.eq_zero_or_pos i with h0 | hpos
    · subst h0; rfl
    · have h1 : smaCrossSignal short long close (i - 1) = 0 :=
        smaCrossSignal_eq_zero short long close (i - 1) (by omega)
      have h2 : smaCrossSignal short long close i = 0 :=
        smaCrossSignal_eq_zero short long close i (by omega)
      unfold smaCrossoverAt
      rw [if_neg (by omega), h1, h2]
      norm_num
  · intro hEq hge
    have h1 : smaCrossSignal short long close (i - 1) = 0 :=
      smaCrossSignal_eq_zero short long close (i - 1) (by omega)
    unfold smaCrossBuy smaCrossoverAt
    rw [if_neg (by omega), h1]
    unfold smaCrossSignal
    split
    · next hgt => norm_num [hgt]
    · next hgt => simp [hgt]

/-- Witness for the amended C1 at windows 1 < 2, the series [1, 10],
index 1. -/
theorem crossover_warmup_behavior_witness :
    (1 < 2 → smaCrossSell 1 2 (fun n => if n = 0 then (1 : ℚ) else 10) 1 = false) ∧
    (1 + 1 < 2 → smaCrossBuy 1 2 (fun n => if n = 0 then (1 : ℚ) else 10) 1 = false) ∧
    (1 = 2 - 1 → 1 ≤ 1 →
      (smaCrossBuy 1 2 (fun n => if n = 0 then (1 : ℚ) else 10) 1 = true ↔
        optGt (sma 1 (fun n => if n = 0 then (1 : ℚ) else 10) 1)
          (sma 2 (fun n => if n = 0 then (1 : ℚ) else 10) 1) = true)) ∧
    emaCrossBuy 1 2 (fun n => if n = 0 then (1 : ℚ) else 10) 0 = false ∧
    emaCrossSell 1 2 (fun n => if n = 0 then (1 : ℚ) else 10) 0 = false ∧
    macdBuySignal (fun n => if n = 0 then (1 : ℚ) else 10) 0 = false ∧
    macdSellSignal (fun n => if n = 0 then (1 : ℚ) else 10) 0 = false :=
  crossover_warmup_behavior 1 2 (fun n => if n = 0 then (1 : ℚ) else 10) 1
    (by decide) (by decide)

/-- C8 (counterexample): `calculate_macd` does not leave the frame it was
given unchanged — on a one-bar frame with no derived columns the result
carries new MACD columns: the shared table is written in place rather than
a fresh derived series being returned. -/
theorem calculate_macd_mutates :
    calculate_macd ⟨[1], []⟩ ≠ (⟨[1], []⟩ : Frame) := by
  intro h
  have hc := congrArg Frame.cols h
  simp [calculate_macd, setCol] at hc

/-- C8 (amended): the calculators write derived columns into the shared
frame in place and return the mutated frame rather than a separate series,
but the pre-existing close-price data is preserved unchanged and every
added derived column is aligned index-for-index (same length) with the
close series; for `bollinger_bands` this holds for every choice of the
rolling standard-deviation primitive. -/
theorem calculators_frame_effects (df : Frame)
    (std : ℕ → (ℕ → ℚ) → ℕ → Option ℚ) (period : ℕ) (k : ℚ) :
    (calculate_macd df).close = df.close ∧
    (bollinger_bands std period k df).close = df.close ∧
    (∃ c, lookupCol (calculate_macd df).cols "MACD" = some c ∧
      c.length = df.close.length) ∧
    (∃ c, lookupCol (calculate_macd df).cols "MACD_SIGNAL" = some c ∧
      c.length = df.close.length) ∧
    (∃ c, lookupCol (bollinger_bands std period k df).cols "Upper Band" = some c ∧
      c.length = df.close.length) ∧
    (∃ c, lookupCol (bollinger_bands std period k df).cols "Lower Band" = some c ∧
      c.length = df.close.length) := by
  refine ⟨rfl, rfl, ?_, ?_, ?_, ?_⟩
  · refine ⟨colOf df.close.length
        (fun i => some (macdLine (closeFun df.close) i)), ?_, colOf_length _ _⟩
    simp only [calculate_macd]
    rw [lookupCol_setCol_ne _ _ _ _ (by decide)]
    exact lookupCol_setCol_self _ _ _
  · refine ⟨colOf df.close.length
        (fun i => some (macdSignalLine (closeFun df.close) i)), ?_, colOf_length _ _⟩
    simp only [calculate_macd]
    exact lookupCol_setCol_self _ _ _
  · refine ⟨colOf df.close.length
        (fun i => optAdd (sma period (closeFun df.close) i)
          (optSMul k (std period (closeFun df.close) i))), ?_, colOf_length _ _⟩
    simp only [bollinger_bands]
    rw [lookupCol_setCol_ne _ _ _ _ (by decide)]
    exact lookupCol_setCol_self _ _ _
  · refine ⟨colOf df.close.length
        (fun i => optSub (sma period (closeFun df.close) i)
          (optSMul k (std period (closeFun df.close) i))), ?_, colOf_length _ _⟩
    simp only [bollinger_bands]
    exact lookupCol_setCol_self _ _ _
